import Mathlib

/-!
Verification of the conversation-state and context-budget management
subsystem of the GLM writing agent (`writer.py`, `utils.py`).

The agent loop is embedded shallowly: the external world (the model API,
the tool handlers, the compression subcall) is represented by an
environment that supplies, for each iteration, the outcome of every
effectful call the loop makes.  The loop itself — threshold check,
compression, periodic backup, model call, tool dispatch, termination —
is translated directly from `writer.py`.  Machine-visible behaviour is
recorded in an event log so that temporal properties ("before the next
model call") can be stated precisely.
-/

/-- Constants from `writer.py` (lines 30-34). -/
def MAX_ITERATIONS : Nat := 300

/-- Context window of the model, `writer.py` line 31. -/
def TOKEN_LIMIT : Nat := 200000

/-- Compression trigger, 90% of the limit, `writer.py` line 32. -/
def COMPRESSION_THRESHOLD : Nat := 180000

/-- Backup every N iterations, `writer.py` line 34. -/
def BACKUP_INTERVAL : Nat := 50

/-- A conversation message, the dictionaries built in `writer.py`:
role, content, and (for tool-result messages only) a `tool_call_id`. -/
structure Msg where
  role : String
  content : String
  tool_call_id : Option String := none
deriving Repr, DecidableEq

/-- A tool invocation extracted from a model response
(`writer.py` lines 260-266): id, function name, and the JSON
arguments blob (never inspected by the loop). -/
structure FC where
  id : String
  name : String
  args : String := ""
deriving Repr, DecidableEq

/-- The tokenizer as seen by `estimate_token_count`: either
`tiktoken.get_encoding` succeeds and yields an encoder (which may
itself fail on a given string), or it raises. -/
inductive Tokenizer
  | available (enc : String → Option Nat)
  | unavailable

/-- Sum the encoder over the messages' `content` fields; `none` when
encoding raises on any message (the exception aborts the whole loop
in `utils.py` lines 26-28). -/
def encodeAll (enc : String → Option Nat) : List Msg → Option Nat
  | [] => some 0
  | m :: rest =>
    match enc m.content, encodeAll enc rest with
    | some n, some s => some (n + s)
    | _, _ => none

/-- `sum(len(msg.get("content", "")) for msg in messages)`,
`utils.py` line 33. -/
def total_chars (messages : List Msg) : Nat :=
  (messages.map (fun m => m.content.length)).sum

/-- `estimate_token_count` from `utils.py` lines 9-34: tokenize each
message's content and sum; on any tokenization failure fall back to
`total_chars // 4`. -/
def estimate_token_count (tok : Tokenizer) (messages : List Msg) : Nat :=
  match tok with
  | .available enc =>
    match encodeAll enc messages with
    | some n => n
    | none => total_chars messages / 4
  | .unavailable => total_chars messages / 4

/-- Tokenization failed for some reason: either the encoding could not
be obtained, or encoding some message's content raised. -/
def tokenizationFails (tok : Tokenizer) (messages : List Msg) : Prop :=
  match tok with
  | .available enc => encodeAll enc messages = none
  | .unavailable => True

/-- The system prompt of `utils.py` `get_system_prompt` (lines 119-157).
The loop only ever passes this string through; no branch inspects it,
so the long prompt text is abbreviated to its first sentence. -/
def get_system_prompt : String :=
  "You are an expert creative writing assistant."

/-- `system_instruction = get_system_prompt()`, `writer.py` line 167. -/
def system_instruction : String := get_system_prompt

/-- The system message prepended at call time, `writer.py` line 232. -/
def systemMsg : Msg := { role := "system", content := system_instruction }

/-- Outcome of one call to the compression subsystem, supplied by the
environment: the summarization model call succeeds (producing a summary
text and writing a timestamped snapshot file), returns a failure value,
or raises an exception. -/
inductive CompressOutcome
  | success (summary : String) (file : String)
  | failure
  | raised
deriving Repr, DecidableEq

/-- The dictionary returned by `compress_context_impl`:
`compressed_messages` is present only on success (`writer.py` line 199
tests for the key), `summary_file` names the snapshot written on
success (`writer.py` line 226 reads it). -/
structure CompressResult where
  compressed_messages : Option (List Msg)
  message : String
  summary_file : Option String
deriving Repr, DecidableEq

/-- Modelled from the spec: the synthetic user message wrapping the
summary "with explicit markers denoting it as recovered/compressed
context" (spec section 4.2); `tools/compression.py` is not under
`src/`. -/
def summaryMsg (summary : String) : Msg :=
  { role := "user",
    content := "[COMPRESSED CONTEXT]\n" ++ summary ++ "\n[END COMPRESSED CONTEXT]" }

/-- Modelled from the spec: the replacement conversation built by the
compressor, spec section 4.2: "[system message (unchanged), synthetic
user message wrapping the summary, ...recent suffix]", where the recent
suffix is the last `keep_recent` messages of the non-system part —
section 8 fixes the length at `2 + min(keep_recent, len - 1)`. -/
def buildCompressed (conv : List Msg) (keep_recent : Nat) (summary : String) : List Msg :=
  match conv with
  | [] => [summaryMsg summary]
  | sys :: rest => sys :: summaryMsg summary :: rest.drop (rest.length - keep_recent)

/-- The result-dictionary text for a compression call; the spec does not
fix its wording (the loop only prints it or returns it as a tool-result
string), so it is modelled as a constant. -/
def compressResultMessage : String := "Compression completed"

/-- Modelled from the spec: `compress_context_impl` from
`tools/compression.py` (not under `src/`), per spec section 4.2.
On success it returns the replacement messages, a result text and the
snapshot file it wrote; on failure it returns a dictionary without
`compressed_messages` (fail atomically, original conversation kept);
`none` models the call raising an exception. -/
def compress_context_impl (conv : List Msg) (keep_recent : Nat)
    (outcome : CompressOutcome) : Option CompressResult :=
  match outcome with
  | .success summary file =>
    some { compressed_messages := some (buildCompressed conv keep_recent summary)
           message := compressResultMessage
           summary_file := some file }
  | .failure =>
    some { compressed_messages := none
           message := compressResultMessage
           summary_file := none }
  | .raised => none

/-- The tool names registered in `get_tool_map` (`utils.py` lines
103-116). -/
def tool_map_names : List String := ["create_project", "write_file", "compress_context"]

/-- `tool_map.get(func_name)` succeeds, `writer.py` line 310. -/
def isRegisteredTool (name : String) : Bool := tool_map_names.contains name

/-- The tool-result message appended for a tool call,
`writer.py` lines 336-340. -/
def toolMsg (id result : String) : Msg :=
  { role := "tool", content := result, tool_call_id := some id }

/-- `f"Error: Unknown tool \x27{func_name}\x27"`, `writer.py` line 313. -/
def unknownToolError (name : String) : String :=
  "Error: Unknown tool \x27" ++ name ++ "\x27"

/-- Outcome of the model call of one iteration
(`client.chat.completions.create`, `writer.py` line 238): a reply with
text content and a (possibly empty) list of tool invocations, an
exception (network/API failure), or a `KeyboardInterrupt`. -/
inductive ModelOutcome
  | reply (content : String) (fcs : List FC)
  | raised
  | interrupt
deriving Repr

/-- Outcome of executing a dispatched tool handler
(`result = tool_func(**func_args)`, `writer.py` line 327): the call
returns a result (coerced to a string), or it raises. -/
inductive ToolOutcome
  | ok (result : String)
  | raised
deriving Repr, DecidableEq

/-- The external world of one loop iteration: the tokenizer, the
outcome of every compression call the iteration may make (threshold
pass, interval backup, one per intercepted `compress_context` tool
call indexed by position in the turn), the model call outcome, and the
outcome of each dispatched tool execution (indexed by position). -/
structure IterEnv where
  tokenize : Tokenizer
  thresholdCompress : CompressOutcome
  backupCompress : CompressOutcome
  interruptCompress : CompressOutcome
  model : ModelOutcome
  toolCompress : Nat → CompressOutcome
  toolExec : Nat → ToolOutcome

/-- The external world of a whole run: an iteration environment for
each iteration index (1-based), and the outcome of the final backup
compression after the loop (`writer.py` lines 372-384). -/
structure RunEnv where
  iter : Nat → IterEnv
  finalCompress : CompressOutcome

/-- Observable events of the loop, in order: a model call (with the
full message list supplied to it), receipt of a model turn's tool
invocations, a message appended to the live conversation, a compression
pass invoked with a given `keep_recent` (and whether it succeeded), the
conversation being replaced by a compressed form, and a snapshot file
written to disk. -/
inductive Ev
  | call (full : List Msg)
  | emit (fcs : List FC)
  | app (m : Msg)
  | compressEv (keep_recent : Nat) (success : Bool)
  | replaceConv (new : List Msg)
  | snapshot (file : String)
deriving Repr, DecidableEq

def Ev.isCall : Ev → Bool
  | .call _ => true
  | _ => false

def Ev.isApp : Ev → Bool
  | .app _ => true
  | _ => false

def Ev.isEmit : Ev → Bool
  | .emit _ => true
  | _ => false

/-- How one iteration of the `for` loop ends: fall through to the next
iteration (the end of the tool-dispatch pass, or `continue` after a
caught exception), `break` on a turn without tool calls, or
`sys.exit(0)` from the `KeyboardInterrupt` handler. -/
inductive IterExit
  | next (messages : List Msg) (snapshots : List String)
  | done (messages : List Msg) (snapshots : List String)
  | interrupted (messages : List Msg) (snapshots : List String)
deriving Repr, DecidableEq

/-- The live conversation carried by an iteration exit. -/
def IterExit.msgs : IterExit → List Msg
  | .next m _ => m
  | .done m _ => m
  | .interrupted m _ => m

/-- The tool-dispatch pass, `writer.py` lines 301-340: process the
turn's invocations in order; unknown tools produce an error-string
result, `compress_context` is intercepted and run with
`keep_recent = 10` (its replacement messages discarded), every other
registered tool is executed; each result is appended as a `tool`-role
message carrying the invocation's id.  An exception raised by a tool
execution (or by the intercepted compression call, `writer.py` line
318, which is not locally guarded) propagates to the outer handler at
line 359, which continues to the next iteration. -/
def dispatchLoop (env : IterEnv) :
    List FC → Nat → List Msg → List String → IterExit × List Ev
  | [], _, msgs, snaps => (.next msgs snaps, [])
  | fc :: rest, idx, msgs, snaps =>
    if isRegisteredTool fc.name then
      if fc.name == "compress_context" then
        match compress_context_impl (systemMsg :: msgs) 10 (env.toolCompress idx) with
        | some rd =>
          let m := toolMsg fc.id rd.message
          match rd.summary_file with
          | some file =>
            let d := dispatchLoop env rest (idx + 1) (msgs ++ [m]) (snaps ++ [file])
            (d.1, .compressEv 10 true :: .snapshot file :: .app m :: d.2)
          | none =>
            let d := dispatchLoop env rest (idx + 1) (msgs ++ [m]) snaps
            (d.1, .compressEv 10 false :: .app m :: d.2)
        | none => (.next msgs snaps, [.compressEv 10 false])
      else
        match env.toolExec idx with
        | .ok result =>
          let m := toolMsg fc.id result
          let d := dispatchLoop env rest (idx + 1) (msgs ++ [m]) snaps
          (d.1, .app m :: d.2)
        | .raised => (.next msgs snaps, [])
    else
      let m := toolMsg fc.id (unknownToolError fc.name)
      let d := dispatchLoop env rest (idx + 1) (msgs ++ [m]) snaps
      (d.1, .app m :: d.2)

/-- The threshold check and compression pass, `writer.py` lines
185-214: if the token estimate reaches `COMPRESSION_THRESHOLD`, call
the compressor on `[system] + messages` with `keep_recent = 10`; on
success rebuild the conversation from the compressed messages with
system-role messages removed (lines 201-206); a failure value or a
raised exception (caught at line 212) leaves the conversation
unchanged.  Returns the new conversation, the snapshot files written,
and the events. -/
def thresholdPhase (env : IterEnv) (msgs : List Msg) :
    List Msg × List String × List Ev :=
  if COMPRESSION_THRESHOLD ≤ estimate_token_count env.tokenize msgs then
    match compress_context_impl (systemMsg :: msgs) 10 env.thresholdCompress with
    | some rd =>
      match rd.compressed_messages with
      | some cm =>
        let newMessages := cm.filter (fun m => m.role != "system")
        match rd.summary_file with
        | some file =>
          (newMessages, [file],
            [.compressEv 10 true, .snapshot file, .replaceConv newMessages])
        | none =>
          (newMessages, [], [.compressEv 10 true, .replaceConv newMessages])
      | none => (msgs, [], [.compressEv 10 false])
    | none => (msgs, [], [.compressEv 10 false])
  else (msgs, [], [])

/-- A full backup: compress `[system] + messages` with `keep_recent =
len(messages)` and report the snapshot file if one was produced; the
live conversation is not an output.  This is the shape of the interval
backup (`writer.py` lines 220-227), the interrupt handler's save
(lines 345-352) and the final save (lines 373-380). -/
def fullBackup (outcome : CompressOutcome) (msgs : List Msg) :
    List String × List Ev :=
  match compress_context_impl (systemMsg :: msgs) msgs.length outcome with
  | some rd =>
    match rd.summary_file with
    | some file => ([file], [.compressEv msgs.length true, .snapshot file])
    | none => ([], [.compressEv msgs.length false])
  | none => ([], [.compressEv msgs.length false])

/-- The interval-backup step, `writer.py` lines 216-229: on every
iteration divisible by `BACKUP_INTERVAL`, perform a full backup;
exceptions are caught and ignored (line 228). -/
def backupPhase (env : IterEnv) (iteration : Nat) (msgs : List Msg) :
    List String × List Ev :=
  if iteration % BACKUP_INTERVAL == 0 then fullBackup env.backupCompress msgs
  else ([], [])

/-- The assistant message recorded for a model turn, `writer.py` lines
283-286: the text content only, without the tool-call payload. -/
def assistantMsg (content : String) : Msg :=
  { role := "assistant", content := content }

/-- One iteration of the main agent loop, `writer.py` lines 179-362:
threshold check and compression, interval backup, then the model call
on `[{"role": "system", ...}] + messages` (line 232).  A raised model
call is caught at line 359 and the loop continues; a
`KeyboardInterrupt` triggers a best-effort full backup and exits
(lines 342-357); a reply has its assistant message appended (line 283,
without the tool-call payload), terminates the loop if it carries no
tool calls (line 295), and otherwise enters the dispatch pass. -/
def runIter (env : IterEnv) (iteration : Nat) (msgs : List Msg)
    (snaps : List String) : IterExit × List Ev :=
  let tp := thresholdPhase env msgs
  let msgs1 := tp.1
  let bp := backupPhase env iteration msgs1
  let full := systemMsg :: msgs1
  let snaps2 := snaps ++ tp.2.1 ++ bp.1
  let preLog := tp.2.2 ++ bp.2 ++ [.call full]
  match env.model with
  | .raised => (.next msgs1 snaps2, preLog)
  | .interrupt =>
    let ib := fullBackup env.interruptCompress msgs1
    (.interrupted msgs1 (snaps2 ++ ib.1), preLog ++ ib.2)
  | .reply content fcs =>
    let am : Msg := assistantMsg content
    let msgs2 := msgs1 ++ [am]
    if fcs.isEmpty then
      (.done msgs2 snaps2, preLog ++ [.emit fcs, .app am])
    else
      let d := dispatchLoop env fcs 0 msgs2 snaps2
      (d.1, preLog ++ [.emit fcs, .app am] ++ d.2)

/-- How the `for` loop of `writer.py` ends: all iterations ran
(`exhausted`, the loop variable holding `MAX_ITERATIONS`), `break` at
iteration `i` on a turn without tool calls, or `sys.exit(0)` from the
interrupt handler. -/
inductive LoopExit
  | exhausted (messages : List Msg) (snapshots : List String)
  | completed (messages : List Msg) (snapshots : List String) (iteration : Nat)
  | interrupted (messages : List Msg) (snapshots : List String)
deriving Repr, DecidableEq

/-- The main loop from iteration `i` with `r` iterations remaining. -/
def runAux (env : Nat → IterEnv) :
    Nat → Nat → List Msg → List String → LoopExit × List Ev
  | _, 0, msgs, snaps => (.exhausted msgs snaps, [])
  | i, r + 1, msgs, snaps =>
    match runIter (env i) i msgs snaps with
    | (.next m s, l) =>
      let rec2 := runAux env (i + 1) r m s
      (rec2.1, l ++ rec2.2)
    | (.done m s, l) => (.completed m s i, l)
    | (.interrupted m s, l) => (.interrupted m s, l)

/-- The final state of a run: the live conversation, the snapshot
files written, and which of the terminal outcomes occurred, `TASK
COMPLETED` (`writer.py` line 291), the interrupt exit (line 357), and
the `MAX ITERATIONS REACHED` epilogue (lines 364-384). -/
structure FinalState where
  messages : List Msg
  snapshots : List String
  completedNaturally : Bool
  interrupted : Bool
  maxIterationsReached : Bool
deriving Repr, DecidableEq

/-- The whole run of `main` after setup, `writer.py` lines 157-384:
the conversation is seeded with the single user message, the loop runs
from iteration 1, and if the loop variable reached `MAX_ITERATIONS`
(loop exhausted, or `break` exactly at the final iteration) the
epilogue performs a final full backup. -/
def runMain (env : RunEnv) (prompt : String) : FinalState × List Ev :=
  let msgs0 : List Msg := [{ role := "user", content := prompt }]
  match runAux env.iter 1 MAX_ITERATIONS msgs0 [] with
  | (.exhausted msgs snaps, log) =>
    let fb := fullBackup env.finalCompress msgs
    ({ messages := msgs, snapshots := snaps ++ fb.1,
       completedNaturally := false, interrupted := false,
       maxIterationsReached := true }, log ++ fb.2)
  | (.completed msgs snaps i, log) =>
    if MAX_ITERATIONS ≤ i then
      let fb := fullBackup env.finalCompress msgs
      ({ messages := msgs, snapshots := snaps ++ fb.1,
         completedNaturally := true, interrupted := false,
         maxIterationsReached := true }, log ++ fb.2)
    else
      ({ messages := msgs, snapshots := snaps,
         completedNaturally := true, interrupted := false,
         maxIterationsReached := false }, log)
  | (.interrupted msgs snaps, log) =>
    ({ messages := msgs, snapshots := snaps,
       completedNaturally := false, interrupted := true,
       maxIterationsReached := false }, log)

/-! ## Helper lemmas -/

/-- The dispatch pass never terminates or aborts the run: every branch
falls through to the next loop iteration. -/
theorem dispatchLoop_exit_next (env : IterEnv) (fcs : List FC) :
    ∀ (idx : Nat) (msgs : List Msg) (snaps : List String),
      ∃ m s, (dispatchLoop env fcs idx msgs snaps).1 = IterExit.next m s := by
  induction fcs with
  | nil => intro idx msgs snaps; exact ⟨msgs, snaps, rfl⟩
  | cons fc rest ih =>
    intro idx msgs snaps
    by_cases hreg : isRegisteredTool fc.name = true
    · by_cases hcc : (fc.name == "compress_context") = true
      · cases hx : env.toolCompress idx with
        | success s f =>
          simpa [dispatchLoop, compress_context_impl, hreg, hcc, hx] using ih ..
        | failure =>
          simpa [dispatchLoop, compress_context_impl, hreg, hcc, hx] using ih ..
        | raised =>
          exact ⟨msgs, snaps, by
            simp [dispatchLoop, compress_context_impl, hreg, hcc, hx]⟩
      · cases hy : env.toolExec idx with
        | ok r => simpa [dispatchLoop, hreg, hcc, hy] using ih ..
        | raised =>
          exact ⟨msgs, snaps, by simp [dispatchLoop, hreg, hcc, hy]⟩
    · simpa [dispatchLoop, hreg] using ih ..

/-- Every iteration's event log consists of the threshold-phase events,
then the backup-phase events, then the model call on the system-prefixed
conversation, then the rest of the iteration. -/
theorem runIter_log_shape (env : IterEnv) (i : Nat) (msgs : List Msg)
    (snaps : List String) :
    ∃ post, (runIter env i msgs snaps).2 =
      (thresholdPhase env msgs).2.2 ++
        (backupPhase env i (thresholdPhase env msgs).1).2 ++
        Ev.call (systemMsg :: (thresholdPhase env msgs).1) :: post := by
  unfold runIter
  cases hm : env.model with
  | raised => exact ⟨[], by simp⟩
  | interrupt =>
    exact ⟨(fullBackup env.interruptCompress (thresholdPhase env msgs).1).2,
      by simp⟩
  | reply c fcs =>
    by_cases hf : fcs.isEmpty = true
    · exact ⟨[Ev.emit fcs,
        Ev.app (assistantMsg c)],
        by simp [hf]⟩
    · exact ⟨Ev.emit fcs ::
        Ev.app (assistantMsg c) ::
        (dispatchLoop env fcs 0
          ((thresholdPhase env msgs).1 ++
            [assistantMsg c])
          (snaps ++ ((thresholdPhase env msgs).2.1 ++
            (backupPhase env i (thresholdPhase env msgs).1).1))).2,
        by simp [hf]⟩

/-- When the token estimate reaches the threshold, the threshold phase
logs a compression pass with `keep_recent = 10`. -/
theorem thresholdPhase_compressEv (env : IterEnv) (msgs : List Msg)
    (hTok : COMPRESSION_THRESHOLD ≤ estimate_token_count env.tokenize msgs) :
    ∃ b, Ev.compressEv 10 b ∈ (thresholdPhase env msgs).2.2 := by
  unfold thresholdPhase
  rw [if_pos hTok]
  cases hc : env.thresholdCompress with
  | success s f => exact ⟨true, by simp [compress_context_impl]⟩
  | failure => exact ⟨false, by simp [compress_context_impl]⟩
  | raised => exact ⟨false, by simp [compress_context_impl]⟩

/-- When the token estimate reaches the threshold and the compression
call succeeds, the conversation is replaced by the compressed form
(with system-role messages removed). -/
theorem thresholdPhase_success (env : IterEnv) (msgs : List Msg)
    (s f : String)
    (hTok : COMPRESSION_THRESHOLD ≤ estimate_token_count env.tokenize msgs)
    (hc : env.thresholdCompress = .success s f) :
    (thresholdPhase env msgs).1 =
      (buildCompressed (systemMsg :: msgs) 10 s).filter
        (fun m => m.role != "system") := by
  unfold thresholdPhase
  rw [if_pos hTok, hc]
  simp [compress_context_impl]

/-- The length of the compressed replacement: one synthetic summary
message plus the most recent `min keep_recent (length of the
conversation)` messages, provided the conversation holds no
system-role message. -/
theorem compressed_length (msgs : List Msg) (keep : Nat) (s : String)
    (hNoSys : msgs.all (fun m => m.role != "system") = true) :
    ((buildCompressed (systemMsg :: msgs) keep s).filter
        (fun m => m.role != "system")).length =
      1 + (msgs.length - (msgs.length - keep)) := by
  have hdrop : (msgs.drop (msgs.length - keep)).filter
      (fun m => m.role != "system") = msgs.drop (msgs.length - keep) := by
    rw [List.filter_eq_self]
    intro m hm
    exact (List.all_eq_true.mp hNoSys) m (List.mem_of_mem_drop hm)
  simp [buildCompressed, systemMsg, summaryMsg, hdrop]
  omega

/-- On an interval-backup iteration, the backup phase logs a
compression pass with `keep_recent` equal to the current conversation
length. -/
theorem backupPhase_compressEv (env : IterEnv) (i : Nat) (msgs : List Msg)
    (h : i % BACKUP_INTERVAL = 0) :
    ∃ b, Ev.compressEv msgs.length b ∈ (backupPhase env i msgs).2 := by
  unfold backupPhase fullBackup
  rw [if_pos (by simp [h])]
  cases hc : env.backupCompress with
  | success s f => exact ⟨true, by simp [compress_context_impl]⟩
  | failure => exact ⟨false, by simp [compress_context_impl]⟩
  | raised => exact ⟨false, by simp [compress_context_impl]⟩

/-- The dispatch pass reads only the tool-execution and
tool-compression outcomes of the environment. -/
theorem dispatchLoop_congr (env env' : IterEnv)
    (h1 : env'.toolCompress = env.toolCompress)
    (h2 : env'.toolExec = env.toolExec) (fcs : List FC) :
    ∀ (idx : Nat) (msgs : List Msg) (snaps : List String),
      dispatchLoop env' fcs idx msgs snaps =
        dispatchLoop env fcs idx msgs snaps := by
  induction fcs with
  | nil => intro idx msgs snaps; rfl
  | cons fc rest ih =>
    intro idx msgs snaps
    simp only [dispatchLoop, h1, h2, ih]

/-! ## Claims -/

/-- C3: for every message list, if tokenization fails for any reason
then `estimate_token_count` returns `total_character_count // 4`
(summed over the messages' content fields).  The fallback never raises
and always returns an integer: in this embedding
`estimate_token_count` is a total function into `Nat` by
construction. -/
theorem C3_estimator_fallback (tok : Tokenizer) (messages : List Msg)
    (h : tokenizationFails tok messages) :
    estimate_token_count tok messages = total_chars messages / 4 := by
  cases tok with
  | unavailable => rfl
  | available enc =>
    simp only [tokenizationFails] at h
    simp [estimate_token_count, h]

/-- Witness for C3 at a concrete input: the tokenizer is unavailable
and the estimate is the character count divided by four. -/
theorem C3_estimator_fallback_witness :
    tokenizationFails Tokenizer.unavailable
        [{ role := "user", content := "abcdefgh" }] ∧
      estimate_token_count Tokenizer.unavailable
          [{ role := "user", content := "abcdefgh" }] =
        total_chars [{ role := "user", content := "abcdefgh" }] / 4 :=
  ⟨True.intro, C3_estimator_fallback _ _ True.intro⟩

/-- C8: a tool invocation whose name is not registered does not crash
the loop: the dispatch pass appends the descriptive unknown-tool error
string as the tool-result message carrying that invocation's id and
goes on, and the whole pass still falls through to the next
iteration. -/
theorem C8_unknown_tool_recovered (env : IterEnv) (fc : FC) (rest : List FC)
    (idx : Nat) (msgs : List Msg) (snaps : List String)
    (h : isRegisteredTool fc.name = false) :
    dispatchLoop env (fc :: rest) idx msgs snaps =
      ((dispatchLoop env rest (idx + 1)
          (msgs ++ [toolMsg fc.id (unknownToolError fc.name)]) snaps).1,
        .app (toolMsg fc.id (unknownToolError fc.name)) ::
          (dispatchLoop env rest (idx + 1)
            (msgs ++ [toolMsg fc.id (unknownToolError fc.name)]) snaps).2) ∧
      ∃ m2 s2, (dispatchLoop env (fc :: rest) idx msgs snaps).1 =
        IterExit.next m2 s2 := by
  constructor
  · simp [dispatchLoop, h]
  · exact dispatchLoop_exit_next env (fc :: rest) idx msgs snaps

/-- A concrete environment for witnesses: the model replies without
tool calls, compression succeeds, tools return a result. -/
def wEnv : IterEnv :=
  { tokenize := .unavailable
    thresholdCompress := .raised
    backupCompress := .raised
    interruptCompress := .raised
    model := .reply "" []
    toolCompress := fun _ => .success "S" "ctx.md"
    toolExec := fun _ => .ok "ok" }

/-- Witness for C8 at a concrete input: the tool name `read_file` is
not registered and the error-string tool message is appended. -/
theorem C8_unknown_tool_recovered_witness :
    dispatchLoop wEnv [{ id := "a1", name := "read_file" }] 0 [] [] =
      ((dispatchLoop wEnv [] 1
          [toolMsg "a1" (unknownToolError "read_file")] []).1,
        .app (toolMsg "a1" (unknownToolError "read_file")) ::
          (dispatchLoop wEnv [] 1
            [toolMsg "a1" (unknownToolError "read_file")] []).2) ∧
      ∃ m2 s2, (dispatchLoop wEnv [{ id := "a1", name := "read_file" }] 0 [] []).1 =
        IterExit.next m2 s2 := by
  have h := C8_unknown_tool_recovered wEnv { id := "a1", name := "read_file" }
    [] 0 [] [] (by decide)
  simpa using h

/-- C6: a tool invocation whose handler execution fails is surfaced as
the tool result string (the handlers report failures such as a
write-mode conflict by returning a status string, per the tool
contract), appended as a `tool`-role message with the invocation's id,
and nothing is raised out of the dispatch pass: the run continues. -/
theorem C6_tool_failure_surfaced (env : IterEnv) (fc : FC) (rest : List FC)
    (idx : Nat) (msgs : List Msg) (snaps : List String) (r : String)
    (hreg : isRegisteredTool fc.name = true)
    (hcc : (fc.name == "compress_context") = false)
    (hex : env.toolExec idx = .ok r) :
    dispatchLoop env (fc :: rest) idx msgs snaps =
      ((dispatchLoop env rest (idx + 1) (msgs ++ [toolMsg fc.id r]) snaps).1,
        .app (toolMsg fc.id r) ::
          (dispatchLoop env rest (idx + 1) (msgs ++ [toolMsg fc.id r]) snaps).2) ∧
      ∃ m2 s2, (dispatchLoop env (fc :: rest) idx msgs snaps).1 =
        IterExit.next m2 s2 := by
  constructor
  · simp [dispatchLoop, hreg, hcc, hex]
  · exact dispatchLoop_exit_next env (fc :: rest) idx msgs snaps

/-- Witness for C6 at a concrete input: a `write_file` call whose
handler reports a create-mode conflict as its result string. -/
theorem C6_tool_failure_surfaced_witness :
    dispatchLoop
        { wEnv with toolExec := fun _ => .ok "Error: file already exists" }
        [{ id := "b1", name := "write_file" }] 0 [] [] =
      ((dispatchLoop
          { wEnv with toolExec := fun _ => .ok "Error: file already exists" }
          [] 1 [toolMsg "b1" "Error: file already exists"] []).1,
        .app (toolMsg "b1" "Error: file already exists") ::
          (dispatchLoop
            { wEnv with toolExec := fun _ => .ok "Error: file already exists" }
            [] 1 [toolMsg "b1" "Error: file already exists"] []).2) ∧
      ∃ m2 s2,
        (dispatchLoop
            { wEnv with toolExec := fun _ => .ok "Error: file already exists" }
            [{ id := "b1", name := "write_file" }] 0 [] []).1 =
          IterExit.next m2 s2 :=
  C6_tool_failure_surfaced _ _ [] 0 [] [] _ (by decide) (by decide) rfl

/-- C10: a model-issued `compress_context` invocation is intercepted
and run with the default `keep_recent = 10` policy, but its returned
compressed message sequence is discarded: the live conversation gains
only the single tool-result message, even though the compression call
did compute a full replacement sequence. -/
theorem C10_model_compress_discarded (env : IterEnv) (fc : FC) (rest : List FC)
    (idx : Nat) (msgs : List Msg) (snaps : List String) (s f : String)
    (hname : fc.name = "compress_context")
    (hc : env.toolCompress idx = .success s f) :
    dispatchLoop env (fc :: rest) idx msgs snaps =
      ((dispatchLoop env rest (idx + 1)
          (msgs ++ [toolMsg fc.id compressResultMessage]) (snaps ++ [f])).1,
        .compressEv 10 true :: .snapshot f ::
          .app (toolMsg fc.id compressResultMessage) ::
          (dispatchLoop env rest (idx + 1)
            (msgs ++ [toolMsg fc.id compressResultMessage]) (snaps ++ [f])).2) ∧
      (compress_context_impl (systemMsg :: msgs) 10 (env.toolCompress idx)).map
          CompressResult.compressed_messages =
        some (some (buildCompressed (systemMsg :: msgs) 10 s)) := by
  constructor
  · simp [dispatchLoop, hname, hc, compress_context_impl, isRegisteredTool,
      tool_map_names]
  · simp [hc, compress_context_impl]

/-- Witness for C10 at a concrete input. -/
theorem C10_model_compress_discarded_witness :
    dispatchLoop wEnv [{ id := "c1", name := "compress_context" }] 0
        [{ role := "user", content := "hi" }] [] =
      ((dispatchLoop wEnv [] 1
          ([{ role := "user", content := "hi" }] ++
            [toolMsg "c1" compressResultMessage]) ([] ++ ["ctx.md"])).1,
        .compressEv 10 true :: .snapshot "ctx.md" ::
          .app (toolMsg "c1" compressResultMessage) ::
          (dispatchLoop wEnv [] 1
            ([{ role := "user", content := "hi" }] ++
              [toolMsg "c1" compressResultMessage]) ([] ++ ["ctx.md"])).2) ∧
      (compress_context_impl (systemMsg :: [{ role := "user", content := "hi" }])
          10 (wEnv.toolCompress 0)).map CompressResult.compressed_messages =
        some (some (buildCompressed
          (systemMsg :: [{ role := "user", content := "hi" }]) 10 "S")) :=
  C10_model_compress_discarded wEnv { id := "c1", name := "compress_context" }
    [] 0 [{ role := "user", content := "hi" }] [] "S" "ctx.md" rfl rfl

/-- C7: when the model call of an iteration raises (network/API
failure), the iteration falls through and the loop proceeds to the
next iteration without terminating the run: the exit is neither the
completed nor the interrupted one, and the loop recursion continues
with the surviving conversation. -/
theorem C7_model_failure_continues (env : Nat → IterEnv) (i r : Nat)
    (msgs : List Msg) (snaps : List String)
    (h : (env i).model = .raised) :
    ∃ m s l, runIter (env i) i msgs snaps = (IterExit.next m s, l) ∧
      runAux env i (r + 1) msgs snaps =
        ((runAux env (i + 1) r m s).1, l ++ (runAux env (i + 1) r m s).2) := by
  have h1 : runIter (env i) i msgs snaps =
      (IterExit.next (thresholdPhase (env i) msgs).1
          (snaps ++ (thresholdPhase (env i) msgs).2.1 ++
            (backupPhase (env i) i (thresholdPhase (env i) msgs).1).1),
        (thresholdPhase (env i) msgs).2.2 ++
          (backupPhase (env i) i (thresholdPhase (env i) msgs).1).2 ++
          [.call (systemMsg :: (thresholdPhase (env i) msgs).1)]) := by
    simp only [runIter, h]
  refine ⟨_, _, _, h1, ?_⟩
  simp only [runAux, h1]

/-- The conversation carried by a loop exit. -/
def LoopExit.msgs : LoopExit → List Msg
  | .exhausted m _ => m
  | .completed m _ _ => m
  | .interrupted m _ => m

/-- No message of the list carries the `system` role. -/
def noSystemB (msgs : List Msg) : Bool :=
  msgs.all (fun m => m.role != "system")

/-- The per-event statement of C4: every model call receives the system
instruction as its first message followed by a system-free conversation,
and every conversation replacement installs a system-free sequence. -/
def callOK : Ev → Prop
  | .call full => ∃ t, full = systemMsg :: t ∧ noSystemB t = true
  | .replaceConv nm => noSystemB nm = true
  | _ => True

/-- Every event of the list satisfies `callOK`. -/
def logOK (l : List Ev) : Prop := ∀ e ∈ l, callOK e

theorem logOK_append {l1 l2 : List Ev} (h1 : logOK l1) (h2 : logOK l2) :
    logOK (l1 ++ l2) := by
  intro e he
  rcases List.mem_append.mp he with h | h
  · exact h1 e h
  · exact h2 e h

theorem noSystemB_filter (l : List Msg) :
    noSystemB (l.filter (fun m => m.role != "system")) = true := by
  rw [noSystemB, List.all_eq_true]
  intro m hm
  exact (List.mem_filter.mp hm).2

theorem noSystemB_append {l1 l2 : List Msg} (h1 : noSystemB l1 = true)
    (h2 : noSystemB l2 = true) : noSystemB (l1 ++ l2) = true := by
  rw [noSystemB, List.all_append]
  rw [noSystemB] at h1 h2
  simp [h1, h2]

/-- The threshold phase never installs a system-role message: either it
leaves the conversation alone, or it installs the compressed form with
system-role messages filtered out. -/
theorem thresholdPhase_noSystem (env : IterEnv) (msgs : List Msg)
    (h : noSystemB msgs = true) :
    noSystemB (thresholdPhase env msgs).1 = true := by
  by_cases ht : COMPRESSION_THRESHOLD ≤ estimate_token_count env.tokenize msgs
  · cases hc : env.thresholdCompress with
    | success s f =>
      simp [thresholdPhase, ht, hc, compress_context_impl, noSystemB_filter]
    | failure => simpa [thresholdPhase, ht, hc, compress_context_impl] using h
    | raised => simpa [thresholdPhase, ht, hc, compress_context_impl] using h
  · simpa [thresholdPhase, ht] using h

theorem thresholdPhase_logOK (env : IterEnv) (msgs : List Msg) :
    logOK (thresholdPhase env msgs).2.2 := by
  by_cases ht : COMPRESSION_THRESHOLD ≤ estimate_token_count env.tokenize msgs
  · cases hc : env.thresholdCompress with
    | success s f =>
      intro e he
      simp [thresholdPhase, ht, hc, compress_context_impl] at he
      rcases he with h | h | h <;> subst h <;> simp [callOK, noSystemB_filter]
    | failure =>
      intro e he
      simp [thresholdPhase, ht, hc, compress_context_impl] at he
      subst he; simp [callOK]
    | raised =>
      intro e he
      simp [thresholdPhase, ht, hc, compress_context_impl] at he
      subst he; simp [callOK]
  · intro e he
    simp [thresholdPhase, ht] at he

theorem fullBackup_logOK (outcome : CompressOutcome) (msgs : List Msg) :
    logOK (fullBackup outcome msgs).2 := by
  cases outcome with
  | success s f =>
    intro e he
    simp [fullBackup, compress_context_impl] at he
    rcases he with h | h <;> subst h <;> simp [callOK]
  | failure =>
    intro e he
    simp [fullBackup, compress_context_impl] at he
    subst he; simp [callOK]
  | raised =>
    intro e he
    simp [fullBackup, compress_context_impl] at he
    subst he; simp [callOK]

theorem backupPhase_logOK (env : IterEnv) (i : Nat) (msgs : List Msg) :
    logOK (backupPhase env i msgs).2 := by
  unfold backupPhase
  by_cases hb : (i % BACKUP_INTERVAL == 0) = true
  · rw [if_pos hb]; exact fullBackup_logOK env.backupCompress msgs
  · rw [if_neg hb]; intro e he; simp at he

/-- The dispatch pass appends only `tool`-role messages. -/
theorem dispatchLoop_noSystem (env : IterEnv) (fcs : List FC) :
    ∀ (idx : Nat) (msgs : List Msg) (snaps : List String),
      noSystemB msgs = true →
      noSystemB ((dispatchLoop env fcs idx msgs snaps).1).msgs = true := by
  induction fcs with
  | nil => intro idx msgs snaps h; simpa [dispatchLoop, IterExit.msgs] using h
  | cons fc rest ih =>
    intro idx msgs snaps h
    have happ : ∀ r : String, noSystemB (msgs ++ [toolMsg fc.id r]) = true := by
      intro r
      exact noSystemB_append h (by simp [noSystemB, toolMsg])
    by_cases hreg : isRegisteredTool fc.name = true
    · by_cases hcc : (fc.name == "compress_context") = true
      · cases hx : env.toolCompress idx with
        | success s f =>
          simpa [dispatchLoop, compress_context_impl, hreg, hcc, hx]
            using ih _ _ _ (happ _)
        | failure =>
          simpa [dispatchLoop, compress_context_impl, hreg, hcc, hx]
            using ih _ _ _ (happ _)
        | raised =>
          simpa [dispatchLoop, compress_context_impl, hreg, hcc, hx,
            IterExit.msgs] using h
      · cases hy : env.toolExec idx with
        | ok r =>
          simpa [dispatchLoop, hreg, hcc, hy] using ih _ _ _ (happ _)
        | raised =>
          simpa [dispatchLoop, hreg, hcc, hy, IterExit.msgs] using h
    · simpa [dispatchLoop, hreg] using ih _ _ _ (happ _)

/-- The dispatch pass logs only appends, compression passes and
snapshots — never a model call or a conversation replacement. -/
theorem dispatchLoop_logOK (env : IterEnv) (fcs : List FC) :
    ∀ (idx : Nat) (msgs : List Msg) (snaps : List String),
      logOK (dispatchLoop env fcs idx msgs snaps).2 := by
  induction fcs with
  | nil => intro idx msgs snaps e he; simp [dispatchLoop] at he
  | cons fc rest ih =>
    intro idx msgs snaps
    by_cases hreg : isRegisteredTool fc.name = true
    · by_cases hcc : (fc.name == "compress_context") = true
      · cases hx : env.toolCompress idx with
        | success s f =>
          intro e he
          simp [dispatchLoop, compress_context_impl, hreg, hcc, hx] at he
          rcases he with h | h | h | h
          · subst h; simp [callOK]
          · subst h; simp [callOK]
          · subst h; simp [callOK]
          · exact ih _ _ _ e h
        | failure =>
          intro e he
          simp [dispatchLoop, compress_context_impl, hreg, hcc, hx] at he
          rcases he with h | h | h
          · subst h; simp [callOK]
          · subst h; simp [callOK]
          · exact ih _ _ _ e h
        | raised =>
          intro e he
          simp [dispatchLoop, compress_context_impl, hreg, hcc, hx] at he
          subst he; simp [callOK]
      · cases hy : env.toolExec idx with
        | ok r =>
          intro e he
          simp [dispatchLoop, hreg, hcc, hy] at he
          rcases he with h | h
          · subst h; simp [callOK]
          · exact ih _ _ _ e h
        | raised =>
          intro e he
          simp [dispatchLoop, hreg, hcc, hy] at he
    · intro e he
      simp [dispatchLoop, hreg] at he
      rcases he with h | h
      · subst h; simp [callOK]
      · exact ih _ _ _ e h

/-- One iteration: every logged model call is system-prefixed over a
system-free conversation, and the resulting conversation is
system-free. -/
theorem runIter_OK (env : IterEnv) (i : Nat) (msgs : List Msg)
    (snaps : List String) (h : noSystemB msgs = true) :
    logOK (runIter env i msgs snaps).2 ∧
      noSystemB ((runIter env i msgs snaps).1).msgs = true := by
  have hns1 := thresholdPhase_noSystem env msgs h
  have hcall : callOK (Ev.call (systemMsg :: (thresholdPhase env msgs).1)) :=
    ⟨(thresholdPhase env msgs).1, rfl, hns1⟩
  have hpre : logOK ((thresholdPhase env msgs).2.2 ++
      (backupPhase env i (thresholdPhase env msgs).1).2 ++
      [Ev.call (systemMsg :: (thresholdPhase env msgs).1)]) := by
    refine logOK_append (logOK_append (thresholdPhase_logOK env msgs)
      (backupPhase_logOK env i _)) ?_
    intro e he
    simp at he
    subst he; exact hcall
  have hns2 : ∀ c : String,
      noSystemB ((thresholdPhase env msgs).1 ++
        [assistantMsg c]) = true := by
    intro c
    exact noSystemB_append hns1 (by simp [noSystemB, assistantMsg])
  cases hm : env.model with
  | raised =>
    constructor
    · simpa [runIter, hm, List.append_assoc] using
        (by simpa [List.append_assoc] using hpre)
    · simpa [runIter, hm, IterExit.msgs] using hns1
  | interrupt =>
    constructor
    · simp only [runIter, hm]
      refine logOK_append ?_ (fullBackup_logOK _ _)
      simpa [List.append_assoc] using hpre
    · simpa [runIter, hm, IterExit.msgs] using hns1
  | reply c fcs =>
    by_cases hf : fcs.isEmpty = true
    · constructor
      · simp only [runIter, hm, hf, if_pos]
        refine logOK_append ?_ ?_
        · simpa [List.append_assoc] using hpre
        · intro e he
          simp at he
          rcases he with h1 | h1 <;> subst h1 <;> simp [callOK]
      · simpa [runIter, hm, hf, IterExit.msgs] using hns2 c
    · constructor
      · simp only [runIter, hm, hf, if_neg, Bool.not_eq_true]
        refine logOK_append ?_ ?_
        · refine logOK_append ?_ ?_
          · simpa [List.append_assoc] using hpre
          · intro e he
            simp at he
            rcases he with h1 | h1 <;> subst h1 <;> simp [callOK]
        · exact dispatchLoop_logOK env fcs 0 _ _
      · simp only [runIter, hm, hf, if_neg, Bool.not_eq_true]
        exact dispatchLoop_noSystem env fcs 0 _ _ (hns2 c)

/-- The whole loop: from a system-free conversation, every logged event
is `callOK` and the conversation stays system-free. -/
theorem runAux_OK (env : Nat → IterEnv) :
    ∀ (r i : Nat) (msgs : List Msg) (snaps : List String),
      noSystemB msgs = true →
      logOK (runAux env i r msgs snaps).2 ∧
        noSystemB ((runAux env i r msgs snaps).1).msgs = true := by
  intro r
  induction r with
  | zero =>
    intro i msgs snaps h
    constructor
    · intro e he; simp [runAux] at he
    · simpa [runAux, LoopExit.msgs] using h
  | succ r ih =>
    intro i msgs snaps h
    have hIter := runIter_OK (env i) i msgs snaps h
    rcases hri : runIter (env i) i msgs snaps with ⟨ex, l⟩
    rw [hri] at hIter
    cases ex with
    | next m s =>
      have hrec := ih (i + 1) m s (by simpa [IterExit.msgs] using hIter.2)
      constructor
      · simp only [runAux, hri]
        exact logOK_append hIter.1 hrec.1
      · simp only [runAux, hri]
        exact hrec.2
    | done m s =>
      constructor
      · simp only [runAux, hri]
        exact hIter.1
      · simp only [runAux, hri, LoopExit.msgs]
        simpa [IterExit.msgs] using hIter.2
    | interrupted m s =>
      constructor
      · simp only [runAux, hri]
        exact hIter.1
      · simp only [runAux, hri, LoopExit.msgs]
        simpa [IterExit.msgs] using hIter.2

/-- C4: in every run, every model call is supplied the system
instruction as its first message, prepended at call time over a stored
conversation that never contains a system-role message — in particular
every conversation replacement following compression installs a
sequence with no system-role message. -/
theorem C4_system_prepended (env : RunEnv) (prompt : String) :
    ∀ e ∈ (runMain env prompt).2, callOK e := by
  have h0 : noSystemB [{ role := "user", content := prompt }] = true := by
    simp [noSystemB]
  have hA := runAux_OK env.iter MAX_ITERATIONS 1
    [{ role := "user", content := prompt }] [] h0
  unfold runMain
  rcases hr : runAux env.iter 1 MAX_ITERATIONS
    [{ role := "user", content := prompt }] [] with ⟨ex, lg⟩
  rw [hr] at hA
  cases ex with
  | exhausted m s =>
    simp only [hr]
    exact logOK_append hA.1 (fullBackup_logOK _ _)
  | completed m s i =>
    simp only [hr]
    by_cases hi : MAX_ITERATIONS ≤ i
    · simp only [hi, if_pos]
      exact logOK_append hA.1 (fullBackup_logOK _ _)
    · simp only [hi, if_neg, not_false_iff]
      exact hA.1
  | interrupted m s =>
    simp only [hr]
    exact hA.1

/-- A concrete whole-run environment for witnesses. -/
def wRunEnv : RunEnv := { iter := fun _ => wEnv, finalCompress := .raised }

/-- Witness for C4 at a concrete run: the first (and only) model call
of the run carries the system instruction first. -/
theorem C4_system_prepended_witness :
    callOK (Ev.call [systemMsg, { role := "user", content := "hi" }]) :=
  C4_system_prepended wRunEnv "hi"
    (Ev.call [systemMsg, { role := "user", content := "hi" }]) (by decide)

def LoopExit.isExhausted : LoopExit → Bool
  | .exhausted _ _ => true
  | _ => false

/-- Counterexample environment for C9: every model turn issues a tool
call (so the run never completes naturally) and every compression call
raises, so no snapshot file is ever written. -/
def itC9 : IterEnv :=
  { tokenize := .unavailable
    thresholdCompress := .raised
    backupCompress := .raised
    interruptCompress := .raised
    model := .reply "c" [{ id := "i", name := "write_file" }]
    toolCompress := fun _ => .raised
    toolExec := fun _ => .ok "ok" }

def envC9 : RunEnv := { iter := fun _ => itC9, finalCompress := .raised }

def IterExit.isNext : IterExit → Bool
  | .next _ _ => true
  | _ => false

def IterExit.snapsOf : IterExit → List String
  | .next _ s => s
  | .done _ s => s
  | .interrupted _ s => s

/-- In the C9 counterexample environment every iteration falls through
to the next one and writes no snapshot. -/
theorem runIter_C9 (i : Nat) (msgs : List Msg) (snaps : List String) :
    ((runIter itC9 i msgs snaps).1).isNext = true ∧
    ((runIter itC9 i msgs snaps).1).snapsOf = snaps := by
  have hreg : isRegisteredTool "write_file" = true := by decide
  have hcc : ("write_file" == "compress_context") = false := by decide
  by_cases ht : COMPRESSION_THRESHOLD ≤
      estimate_token_count Tokenizer.unavailable msgs <;>
    by_cases hb : (i % BACKUP_INTERVAL == 0) = true <;>
      simp [runIter, thresholdPhase, backupPhase, fullBackup,
        compress_context_impl, dispatchLoop, itC9, ht, hb, hreg, hcc,
        IterExit.isNext, IterExit.snapsOf]

/-- In the C9 counterexample environment the loop always exhausts its
remaining iterations without ever accumulating a snapshot. -/
theorem runAux_C9 : ∀ (r i : Nat) (msgs : List Msg) (snaps : List String),
    ∃ m, (runAux envC9.iter i r msgs snaps).1 =
      LoopExit.exhausted m snaps := by
  intro r
  induction r with
  | zero => intro i msgs snaps; exact ⟨msgs, rfl⟩
  | succ r ih =>
    intro i msgs snaps
    have he : envC9.iter i = itC9 := rfl
    have h9 := runIter_C9 i msgs snaps
    rcases hri : runIter itC9 i msgs snaps with ⟨ex, l⟩
    rw [hri] at h9
    cases ex with
    | next m s =>
      have hs : s = snaps := by simpa [IterExit.snapsOf] using h9.2
      subst hs
      obtain ⟨m2, hm2⟩ := ih (i + 1) m s
      refine ⟨m2, ?_⟩
      simp [runAux, he, hri, hm2]
    | done m s => exact absurd h9.1 (by simp [IterExit.isNext])
    | interrupted m s => exact absurd h9.1 (by simp [IterExit.isNext])

/-- C9 as stated is false: in this run the iteration counter reaches
the ceiling without a no-tool-call turn and the loop does terminate in
the max-iterations state, but no snapshot file exists on disk because
every compression attempt (interval backups and the final backup)
failed. -/
theorem C9_counterexample :
    (runMain envC9 "p").1.maxIterationsReached = true ∧
    (runMain envC9 "p").1.completedNaturally = false ∧
    (runMain envC9 "p").1.snapshots = [] := by
  obtain ⟨m, hm⟩ :=
    runAux_C9 MAX_ITERATIONS 1 [{ role := "user", content := "p" }] []
  rcases hr : runAux envC9.iter 1 MAX_ITERATIONS
      [{ role := "user", content := "p" }] [] with ⟨ex, lg⟩
  rw [hr] at hm
  simp only at hm
  subst hm
  have hf : envC9.finalCompress = CompressOutcome.raised := rfl
  simp [runMain, hr, hf, fullBackup, compress_context_impl]

/-- C9 (amended): when the loop exhausts all iterations without a
no-tool-call turn, the run terminates in the max-iterations state
after invoking a final full backup (compression with `keep_recent`
equal to the entire conversation length), and — provided that final
backup compression succeeds — its snapshot file is on disk; moreover
every run terminates through natural completion, an interrupt, or the
max-iterations state. -/
theorem C9_max_iterations_amended (env : RunEnv) (prompt : String)
    (msgs : List Msg) (snaps : List String) (log : List Ev)
    (hExh : runAux env.iter 1 MAX_ITERATIONS
        [{ role := "user", content := prompt }] [] =
      (LoopExit.exhausted msgs snaps, log)) :
    (runMain env prompt).1.maxIterationsReached = true ∧
    (runMain env prompt).2 = log ++ (fullBackup env.finalCompress msgs).2 ∧
    (∃ b, Ev.compressEv msgs.length b ∈ (fullBackup env.finalCompress msgs).2) ∧
    (∀ s f, env.finalCompress = .success s f →
      (runMain env prompt).1.snapshots = snaps ++ [f]) ∧
    (∀ (env2 : RunEnv) (prompt2 : String),
      (runMain env2 prompt2).1.completedNaturally = true ∨
      (runMain env2 prompt2).1.interrupted = true ∨
      (runMain env2 prompt2).1.maxIterationsReached = true) := by
  refine ⟨?_, ?_, ?_, ?_, ?_⟩
  · simp [runMain, hExh]
  · simp [runMain, hExh]
  · cases hc : env.finalCompress with
    | success s f =>
      exact ⟨true, by simp [fullBackup, compress_context_impl, hc]⟩
    | failure =>
      exact ⟨false, by simp [fullBackup, compress_context_impl, hc]⟩
    | raised =>
      exact ⟨false, by simp [fullBackup, compress_context_impl, hc]⟩
  · intro s f hc
    simp [runMain, hExh, fullBackup, compress_context_impl, hc]
  · intro env2 prompt2
    rcases hr : runAux env2.iter 1 MAX_ITERATIONS
      [{ role := "user", content := prompt2 }] [] with ⟨ex, lg⟩
    cases ex with
    | exhausted m s => right; right; simp [runMain, hr]
    | completed m s i =>
      by_cases hi : MAX_ITERATIONS ≤ i
      · left; simp [runMain, hr, hi]
      · left; simp [runMain, hr, hi]
    | interrupted m s => right; left; simp [runMain, hr]

set_option maxRecDepth 2000 in
/-- Witness for the amended C9: the counterexample run does exhaust the
loop, and the amended conclusions hold of it. -/
theorem C9_max_iterations_amended_witness :
    ∃ msgs snaps log,
      runAux envC9.iter 1 MAX_ITERATIONS
          [{ role := "user", content := "p" }] [] =
        (LoopExit.exhausted msgs snaps, log) ∧
      ((runMain envC9 "p").1.maxIterationsReached = true ∧
        (runMain envC9 "p").2 = log ++ (fullBackup envC9.finalCompress msgs).2 ∧
        (∃ b, Ev.compressEv msgs.length b ∈
          (fullBackup envC9.finalCompress msgs).2) ∧
        (∀ s f, envC9.finalCompress = .success s f →
          (runMain envC9 "p").1.snapshots = snaps ++ [f]) ∧
        (∀ (env2 : RunEnv) (prompt2 : String),
          (runMain env2 prompt2).1.completedNaturally = true ∨
          (runMain env2 prompt2).1.interrupted = true ∨
          (runMain env2 prompt2).1.maxIterationsReached = true)) := by
  obtain ⟨m, hm⟩ :=
    runAux_C9 MAX_ITERATIONS 1 [{ role := "user", content := "p" }] []
  rcases hA : runAux envC9.iter 1 MAX_ITERATIONS
      [{ role := "user", content := "p" }] [] with ⟨ex, lg⟩
  rw [hA] at hm
  simp only at hm
  subst hm
  exact ⟨m, [], lg, rfl, C9_max_iterations_amended envC9 "p" m [] lg hA⟩

/-- The number of `tool`-role messages carrying `tool_call_id = id`
appended in the event list. -/
def countToolApps (id : String) (l : List Ev) : Nat :=
  l.countP (fun e =>
    match e with
    | .app m => m.role == "tool" && m.tool_call_id == some id
    | _ => false)

/-- The per-run statement of C1: after every receipt of a model turn's
tool invocations, each invocation id is answered by exactly one
appended `tool`-role message carrying it before the next model call
(the window up to the next `call` event). -/
def goodLogB : List Ev → Bool
  | [] => true
  | .emit fcs :: rest =>
    fcs.all (fun fc =>
      countToolApps fc.id (rest.takeWhile (fun e => !e.isCall)) == 1) &&
      goodLogB rest
  | _ :: rest => goodLogB rest

/-- Events that are neither emits, appends nor model calls. -/
def quiet (l : List Ev) : Bool :=
  l.all (fun e => !e.isEmit && !e.isApp && !e.isCall)

/-- Up to the first model call, the event list appends no message. -/
def appFreeHead (l : List Ev) : Bool :=
  (l.takeWhile (fun e => !e.isCall)).all (fun e => !e.isApp)

theorem takeWhile_append_of_all {α} (p : α → Bool) (l1 l2 : List α)
    (h : l1.all p = true) :
    (l1 ++ l2).takeWhile p = l1 ++ l2.takeWhile p := by
  induction l1 with
  | nil => rfl
  | cons a l ih =>
    rw [List.all_cons, Bool.and_eq_true] at h
    simp [List.takeWhile_cons, h.1, ih h.2]

theorem countToolApps_append (id : String) (l1 l2 : List Ev) :
    countToolApps id (l1 ++ l2) =
      countToolApps id l1 + countToolApps id l2 := by
  simp [countToolApps, List.countP_append]

theorem countToolApps_eq_zero (id : String) (l : List Ev)
    (h : l.all (fun e => !e.isApp) = true) : countToolApps id l = 0 := by
  rw [countToolApps, List.countP_eq_zero]
  intro e he
  have he2 := List.all_eq_true.mp h e he
  cases e <;> simp [Ev.isApp] at he2 ⊢

theorem goodLogB_cons_of_not_emit (e : Ev) (l : List Ev)
    (h : e.isEmit = false) : goodLogB (e :: l) = goodLogB l := by
  cases e <;> first
    | rfl
    | simp [Ev.isEmit] at h

theorem goodLogB_append_noEmit (l1 l2 : List Ev)
    (h : l1.all (fun e => !e.isEmit) = true) :
    goodLogB (l1 ++ l2) = goodLogB l2 := by
  induction l1 with
  | nil => rfl
  | cons e l ih =>
    rw [List.all_cons, Bool.and_eq_true] at h
    rw [List.cons_append, goodLogB_cons_of_not_emit e _ (by simpa using h.1)]
    exact ih h.2

theorem quiet_noEmit {l : List Ev} (h : quiet l = true) :
    l.all (fun e => !e.isEmit) = true := by
  rw [quiet, List.all_eq_true] at h
  rw [List.all_eq_true]
  intro e he
  have := h e he
  simp at this ⊢
  exact this.1.1

theorem quiet_noApp {l : List Ev} (h : quiet l = true) :
    l.all (fun e => !e.isApp) = true := by
  rw [quiet, List.all_eq_true] at h
  rw [List.all_eq_true]
  intro e he
  have := h e he
  simp at this ⊢
  exact this.1.2

theorem quiet_noCall {l : List Ev} (h : quiet l = true) :
    l.all (fun e => !e.isCall) = true := by
  rw [quiet, List.all_eq_true] at h
  rw [List.all_eq_true]
  intro e he
  have := h e he
  simp at this ⊢
  exact this.2

theorem quiet_append {l1 l2 : List Ev} (h1 : quiet l1 = true)
    (h2 : quiet l2 = true) : quiet (l1 ++ l2) = true := by
  rw [quiet, List.all_append]
  rw [quiet] at h1 h2
  simp [h1, h2]

theorem quiet_thresholdPhase (env : IterEnv) (msgs : List Msg) :
    quiet (thresholdPhase env msgs).2.2 = true := by
  by_cases ht : COMPRESSION_THRESHOLD ≤ estimate_token_count env.tokenize msgs
  · cases hc : env.thresholdCompress with
    | success s f =>
      simp [thresholdPhase, ht, hc, compress_context_impl, quiet,
        Ev.isEmit, Ev.isApp, Ev.isCall]
    | failure =>
      simp [thresholdPhase, ht, hc, compress_context_impl, quiet,
        Ev.isEmit, Ev.isApp, Ev.isCall]
    | raised =>
      simp [thresholdPhase, ht, hc, compress_context_impl, quiet,
        Ev.isEmit, Ev.isApp, Ev.isCall]
  · simp [thresholdPhase, ht, quiet]

theorem quiet_fullBackup (o : CompressOutcome) (msgs : List Msg) :
    quiet (fullBackup o msgs).2 = true := by
  cases o <;>
    simp [fullBackup, compress_context_impl, quiet,
      Ev.isEmit, Ev.isApp, Ev.isCall]

theorem quiet_backupPhase (env : IterEnv) (i : Nat) (msgs : List Msg) :
    quiet (backupPhase env i msgs).2 = true := by
  unfold backupPhase
  by_cases hb : (i % BACKUP_INTERVAL == 0) = true
  · rw [if_pos hb]; exact quiet_fullBackup env.backupCompress msgs
  · rw [if_neg hb]; rfl

/-- A quiet prefix followed by a model call: the whole log is good as
soon as the part after the call is, and no message is appended before
the call. -/
theorem goodLogB_block (pre : List Ev) (full : List Msg) (X : List Ev)
    (hq : quiet pre = true) (hX : goodLogB X = true) :
    goodLogB (pre ++ Ev.call full :: X) = true := by
  rw [goodLogB_append_noEmit pre _ (quiet_noEmit hq),
    goodLogB_cons_of_not_emit (Ev.call full) X rfl]
  exact hX

theorem appFreeHead_block (pre : List Ev) (full : List Msg) (X : List Ev)
    (hq : quiet pre = true) :
    appFreeHead (pre ++ Ev.call full :: X) = true := by
  rw [appFreeHead, takeWhile_append_of_all _ pre _ (quiet_noCall hq)]
  have : (Ev.call full :: X).takeWhile (fun e => !e.isCall) = [] := by
    simp [List.takeWhile_cons, Ev.isCall]
  rw [this, List.append_nil]
  exact quiet_noApp hq

theorem toolMsg_pred (idt r id : String) :
    ((toolMsg idt r).role == "tool" &&
      (toolMsg idt r).tool_call_id == some id) = (idt == id) := by
  simp [toolMsg]

theorem countToolApps_cons_app (id : String) (m : Msg) (l : List Ev) :
    countToolApps id (Ev.app m :: l) =
      countToolApps id l +
        (if (m.role == "tool" && m.tool_call_id == some id) = true
          then 1 else 0) := by
  simp [countToolApps, List.countP_cons]

theorem countToolApps_cons_other (id : String) (e : Ev) (l : List Ev)
    (h : e.isApp = false) : countToolApps id (e :: l) = countToolApps id l := by
  cases e <;> simp [countToolApps, List.countP_cons, Ev.isApp] at h ⊢

theorem countP_id_of_nodup (fc : FC) (fcs : List FC) (h : fc ∈ fcs)
    (hn : (fcs.map FC.id).Nodup) :
    fcs.countP (fun x => x.id == fc.id) = 1 := by
  have h1 : (fcs.map FC.id).count fc.id = 1 :=
    List.count_eq_one_of_mem hn (List.mem_map_of_mem _ h)
  rw [List.count, List.countP_map] at h1
  simpa using h1

/-- When no tool execution raises, the dispatch pass appends exactly
one tool-result message per occurrence of each invocation id, and its
log holds no emit and no model call. -/
theorem dispatchLoop_answers (env : IterEnv)
    (hE : ∀ j, env.toolExec j ≠ .raised ∧ env.toolCompress j ≠ .raised) :
    ∀ (fcs : List FC) (idx : Nat) (msgs : List Msg) (snaps : List String),
      (∀ id, countToolApps id (dispatchLoop env fcs idx msgs snaps).2 =
        fcs.countP (fun fc => fc.id == id)) ∧
      (dispatchLoop env fcs idx msgs snaps).2.all
        (fun e => !e.isEmit && !e.isCall) = true := by
  intro fcs
  induction fcs with
  | nil =>
    intro idx msgs snaps
    exact ⟨fun id => by simp [dispatchLoop, countToolApps], by simp [dispatchLoop]⟩
  | cons fc rest ih =>
    intro idx msgs snaps
    by_cases hreg : isRegisteredTool fc.name = true
    · by_cases hcc : (fc.name == "compress_context") = true
      · cases hx : env.toolCompress idx with
        | success s f =>
          have h2 : (dispatchLoop env (fc :: rest) idx msgs snaps).2 =
              .compressEv 10 true :: .snapshot f ::
              .app (toolMsg fc.id compressResultMessage) ::
              (dispatchLoop env rest (idx + 1)
                (msgs ++ [toolMsg fc.id compressResultMessage])
                (snaps ++ [f])).2 := by
            simp [dispatchLoop, compress_context_impl, hreg, hcc, hx]
          obtain ⟨ihc, iha⟩ := ih (idx + 1)
            (msgs ++ [toolMsg fc.id compressResultMessage]) (snaps ++ [f])
          constructor
          · intro id
            rw [h2, countToolApps_cons_other id (Ev.compressEv 10 true) _ rfl,
              countToolApps_cons_other id (Ev.snapshot f) _ rfl,
              countToolApps_cons_app, toolMsg_pred, ihc id, List.countP_cons]
          · rw [h2]
            simp only [List.all_cons, Bool.and_eq_true]
            exact ⟨⟨rfl, rfl⟩, ⟨rfl, rfl⟩, ⟨rfl, rfl⟩, iha⟩
        | failure =>
          have h2 : (dispatchLoop env (fc :: rest) idx msgs snaps).2 =
              .compressEv 10 false ::
              .app (toolMsg fc.id compressResultMessage) ::
              (dispatchLoop env rest (idx + 1)
                (msgs ++ [toolMsg fc.id compressResultMessage]) snaps).2 := by
            simp [dispatchLoop, compress_context_impl, hreg, hcc, hx]
          obtain ⟨ihc, iha⟩ := ih (idx + 1)
            (msgs ++ [toolMsg fc.id compressResultMessage]) snaps
          constructor
          · intro id
            rw [h2, countToolApps_cons_other id (Ev.compressEv 10 false) _ rfl,
              countToolApps_cons_app, toolMsg_pred, ihc id, List.countP_cons]
          · rw [h2]
            simp only [List.all_cons, Bool.and_eq_true]
            exact ⟨⟨rfl, rfl⟩, ⟨rfl, rfl⟩, iha⟩
        | raised => exact absurd hx (hE idx).2
      · cases hy : env.toolExec idx with
        | ok r =>
          have h2 : (dispatchLoop env (fc :: rest) idx msgs snaps).2 =
              .app (toolMsg fc.id r) ::
              (dispatchLoop env rest (idx + 1)
                (msgs ++ [toolMsg fc.id r]) snaps).2 := by
            simp [dispatchLoop, hreg, hcc, hy]
          obtain ⟨ihc, iha⟩ := ih (idx + 1) (msgs ++ [toolMsg fc.id r]) snaps
          constructor
          · intro id
            rw [h2, countToolApps_cons_app, toolMsg_pred, ihc id,
              List.countP_cons]
          · rw [h2]
            simp only [List.all_cons, Bool.and_eq_true]
            exact ⟨⟨rfl, rfl⟩, iha⟩
        | raised => exact absurd hy (hE idx).1
    · have h2 : (dispatchLoop env (fc :: rest) idx msgs snaps).2 =
          .app (toolMsg fc.id (unknownToolError fc.name)) ::
          (dispatchLoop env rest (idx + 1)
            (msgs ++ [toolMsg fc.id (unknownToolError fc.name)]) snaps).2 := by
        simp [dispatchLoop, hreg]
      obtain ⟨ihc, iha⟩ := ih (idx + 1)
        (msgs ++ [toolMsg fc.id (unknownToolError fc.name)]) snaps
      constructor
      · intro id
        rw [h2, countToolApps_cons_app, toolMsg_pred, ihc id,
          List.countP_cons]
      · rw [h2]
        simp only [List.all_cons, Bool.and_eq_true]
        exact ⟨⟨rfl, rfl⟩, iha⟩

theorem all_and_left {α} {l : List α} {p q : α → Bool}
    (h : l.all (fun e => p e && q e) = true) : l.all p = true := by
  rw [List.all_eq_true] at h ⊢
  intro e he
  have h2 := h e he
  rw [Bool.and_eq_true] at h2
  exact h2.1

theorem all_and_right {α} {l : List α} {p q : α → Bool}
    (h : l.all (fun e => p e && q e) = true) : l.all q = true := by
  rw [List.all_eq_true] at h ⊢
  intro e he
  have h2 := h e he
  rw [Bool.and_eq_true] at h2
  exact h2.2

theorem takeWhile_cons_app (m : Msg) (l : List Ev) :
    (Ev.app m :: l).takeWhile (fun e => !e.isCall) =
      Ev.app m :: l.takeWhile (fun e => !e.isCall) := rfl

/-- One iteration preserves the exactly-one-answer log property when no
tool execution raises and the turn's invocation ids are distinct. -/
theorem runIter_goodLog (env : IterEnv) (i : Nat) (msgs : List Msg)
    (snaps : List String)
    (hE : ∀ j, env.toolExec j ≠ .raised ∧ env.toolCompress j ≠ .raised)
    (hN : ∀ c fcs, env.model = .reply c fcs → (fcs.map FC.id).Nodup)
    (REST : List Ev) (hg : goodLogB REST = true)
    (hh : appFreeHead REST = true) :
    goodLogB ((runIter env i msgs snaps).2 ++ REST) = true ∧
    appFreeHead ((runIter env i msgs snaps).2 ++ REST) = true := by
  have hq : quiet ((thresholdPhase env msgs).2.2 ++
      (backupPhase env i (thresholdPhase env msgs).1).2) = true :=
    quiet_append (quiet_thresholdPhase env msgs) (quiet_backupPhase env i _)
  cases hm : env.model with
  | raised =>
    have hshape : (runIter env i msgs snaps).2 ++ REST =
        ((thresholdPhase env msgs).2.2 ++
          (backupPhase env i (thresholdPhase env msgs).1).2) ++
          Ev.call (systemMsg :: (thresholdPhase env msgs).1) :: REST := by
      simp [runIter, hm]
    rw [hshape]
    exact ⟨goodLogB_block _ _ _ hq hg, appFreeHead_block _ _ _ hq⟩
  | interrupt =>
    have hXg : goodLogB
        ((fullBackup env.interruptCompress (thresholdPhase env msgs).1).2 ++
          REST) = true := by
      rw [goodLogB_append_noEmit _ _ (quiet_noEmit (quiet_fullBackup _ _))]
      exact hg
    have hshape : (runIter env i msgs snaps).2 ++ REST =
        ((thresholdPhase env msgs).2.2 ++
          (backupPhase env i (thresholdPhase env msgs).1).2) ++
          Ev.call (systemMsg :: (thresholdPhase env msgs).1) ::
          ((fullBackup env.interruptCompress (thresholdPhase env msgs).1).2 ++
            REST) := by
      simp [runIter, hm]
    rw [hshape]
    exact ⟨goodLogB_block _ _ _ hq hXg, appFreeHead_block _ _ _ hq⟩
  | reply c fcs =>
    by_cases hf : fcs.isEmpty = true
    · have hfn : fcs = [] := by simpa using hf
      subst hfn
      have hXg : goodLogB (Ev.emit ([] : List FC) ::
          Ev.app (assistantMsg c) ::
          REST) = true := by
        rw [goodLogB]
        rw [goodLogB_cons_of_not_emit (Ev.app (assistantMsg c)) REST rfl]
        simpa using hg
      have hshape : (runIter env i msgs snaps).2 ++ REST =
          ((thresholdPhase env msgs).2.2 ++
            (backupPhase env i (thresholdPhase env msgs).1).2) ++
            Ev.call (systemMsg :: (thresholdPhase env msgs).1) ::
            (Ev.emit ([] : List FC) ::
              Ev.app (assistantMsg c) ::
              REST) := by
        simp [runIter, hm]
      rw [hshape]
      exact ⟨goodLogB_block _ _ _ hq hXg, appFreeHead_block _ _ _ hq⟩
    · obtain ⟨hc, ha⟩ := dispatchLoop_answers env hE fcs 0
        ((thresholdPhase env msgs).1 ++
          [assistantMsg c])
        (snaps ++ (thresholdPhase env msgs).2.1 ++
          (backupPhase env i (thresholdPhase env msgs).1).1)
      have hd_noEmit := all_and_left ha
      have hd_noCall := all_and_right ha
      have hXg : goodLogB (Ev.emit fcs ::
          Ev.app (assistantMsg c) ::
          ((dispatchLoop env fcs 0
            ((thresholdPhase env msgs).1 ++
              [assistantMsg c])
            (snaps ++ (thresholdPhase env msgs).2.1 ++
              (backupPhase env i (thresholdPhase env msgs).1).1)).2 ++
            REST)) = true := by
        rw [goodLogB, Bool.and_eq_true]
        constructor
        · rw [List.all_eq_true]
          intro fc hfc
          have hwin : (Ev.app (assistantMsg c) ::
              ((dispatchLoop env fcs 0
                ((thresholdPhase env msgs).1 ++
                  [assistantMsg c])
                (snaps ++ (thresholdPhase env msgs).2.1 ++
                  (backupPhase env i (thresholdPhase env msgs).1).1)).2 ++
                REST)).takeWhile (fun e => !e.isCall) =
              Ev.app (assistantMsg c) ::
              ((dispatchLoop env fcs 0
                ((thresholdPhase env msgs).1 ++
                  [assistantMsg c])
                (snaps ++ (thresholdPhase env msgs).2.1 ++
                  (backupPhase env i (thresholdPhase env msgs).1).1)).2 ++
                REST.takeWhile (fun e => !e.isCall)) := by
            rw [takeWhile_cons_app, takeWhile_append_of_all _ _ _ hd_noCall]
          rw [hwin, countToolApps_cons_app, countToolApps_append, hc fc.id,
            countP_id_of_nodup fc fcs hfc (hN c fcs hm),
            countToolApps_eq_zero _ _ (by simpa [appFreeHead] using hh)]
          simp [assistantMsg]
        · rw [goodLogB_cons_of_not_emit (Ev.app (assistantMsg c)) _ rfl,
            goodLogB_append_noEmit _ _ hd_noEmit]
          exact hg
      have hshape : (runIter env i msgs snaps).2 ++ REST =
          ((thresholdPhase env msgs).2.2 ++
            (backupPhase env i (thresholdPhase env msgs).1).2) ++
            Ev.call (systemMsg :: (thresholdPhase env msgs).1) ::
            (Ev.emit fcs ::
              Ev.app (assistantMsg c) ::
              ((dispatchLoop env fcs 0
                ((thresholdPhase env msgs).1 ++
                  [assistantMsg c])
                (snaps ++ (thresholdPhase env msgs).2.1 ++
                  (backupPhase env i (thresholdPhase env msgs).1).1)).2 ++
                REST)) := by
        simp [runIter, hm, hf]
      rw [hshape]
      exact ⟨goodLogB_block _ _ _ hq hXg, appFreeHead_block _ _ _ hq⟩

theorem goodLogB_of_noEmit (l : List Ev)
    (h : l.all (fun e => !e.isEmit) = true) : goodLogB l = true := by
  have h2 := goodLogB_append_noEmit l [] h
  rw [List.append_nil] at h2
  rw [h2]
  rfl

theorem all_takeWhile {α} (p q : α → Bool) (l : List α)
    (h : l.all q = true) : (l.takeWhile p).all q = true := by
  induction l with
  | nil => rfl
  | cons a t ih =>
    rw [List.all_cons, Bool.and_eq_true] at h
    rw [List.takeWhile_cons]
    split
    · rw [List.all_cons, Bool.and_eq_true]
      exact ⟨h.1, ih h.2⟩
    · rfl

theorem appFreeHead_of_quiet {l : List Ev} (h : quiet l = true) :
    appFreeHead l = true :=
  all_takeWhile _ _ l (quiet_noApp h)

/-- The whole loop preserves the exactly-one-answer log property. -/
theorem runAux_goodLog (env : Nat → IterEnv)
    (hE : ∀ n j, (env n).toolExec j ≠ .raised ∧
      (env n).toolCompress j ≠ .raised)
    (hN : ∀ n c fcs, (env n).model = .reply c fcs → (fcs.map FC.id).Nodup) :
    ∀ (r i : Nat) (msgs : List Msg) (snaps : List String) (REST : List Ev),
      goodLogB REST = true → appFreeHead REST = true →
      goodLogB ((runAux env i r msgs snaps).2 ++ REST) = true ∧
      appFreeHead ((runAux env i r msgs snaps).2 ++ REST) = true := by
  intro r
  induction r with
  | zero =>
    intro i msgs snaps REST hg hh
    exact ⟨by simpa [runAux] using hg, by simpa [runAux] using hh⟩
  | succ r ih =>
    intro i msgs snaps REST hg hh
    rcases hri : runIter (env i) i msgs snaps with ⟨ex, l⟩
    cases ex with
    | next m s =>
      obtain ⟨hg2, hh2⟩ := ih (i + 1) m s REST hg hh
      have hit := runIter_goodLog (env i) i msgs snaps (hE i) (hN i)
        ((runAux env (i + 1) r m s).2 ++ REST) hg2 hh2
      rw [hri] at hit
      have hs : (runAux env i (r + 1) msgs snaps).2 ++ REST =
          l ++ ((runAux env (i + 1) r m s).2 ++ REST) := by
        simp [runAux, hri]
      rw [hs]
      exact hit
    | done m s =>
      have hit := runIter_goodLog (env i) i msgs snaps (hE i) (hN i)
        REST hg hh
      rw [hri] at hit
      have hs : (runAux env i (r + 1) msgs snaps).2 ++ REST = l ++ REST := by
        simp [runAux, hri]
      rw [hs]
      exact hit
    | interrupted m s =>
      have hit := runIter_goodLog (env i) i msgs snaps (hE i) (hN i)
        REST hg hh
      rw [hri] at hit
      have hs : (runAux env i (r + 1) msgs snaps).2 ++ REST = l ++ REST := by
        simp [runAux, hri]
      rw [hs]
      exact hit

/-- C1 (amended): in every run in which no tool execution raises an
exception (every dispatched handler call and every intercepted
compression call returns, successfully or not) and each model turn's
tool invocations carry distinct ids, every tool invocation whose turn
is appended to the conversation is answered by exactly one subsequent
`tool`-role message carrying the same `tool_call_id` before the next
model call. -/
theorem C1_answered_amended (env : RunEnv) (prompt : String)
    (hE : ∀ n j, (env.iter n).toolExec j ≠ .raised ∧
      (env.iter n).toolCompress j ≠ .raised)
    (hN : ∀ n c fcs, (env.iter n).model = .reply c fcs →
      (fcs.map FC.id).Nodup) :
    goodLogB (runMain env prompt).2 = true := by
  rcases hr : runAux env.iter 1 MAX_ITERATIONS
    [{ role := "user", content := prompt }] [] with ⟨ex, lg⟩
  cases ex with
  | exhausted m s =>
    have hfb1 : goodLogB (fullBackup env.finalCompress m).2 = true :=
      goodLogB_of_noEmit _ (quiet_noEmit (quiet_fullBackup _ _))
    have hfb2 : appFreeHead (fullBackup env.finalCompress m).2 = true :=
      appFreeHead_of_quiet (quiet_fullBackup _ _)
    obtain ⟨h1, _⟩ := runAux_goodLog env.iter hE hN MAX_ITERATIONS 1
      [{ role := "user", content := prompt }] []
      (fullBackup env.finalCompress m).2 hfb1 hfb2
    rw [hr] at h1
    have hs : (runMain env prompt).2 =
        lg ++ (fullBackup env.finalCompress m).2 := by
      simp [runMain, hr]
    rw [hs]
    exact h1
  | completed m s i =>
    by_cases hi : MAX_ITERATIONS ≤ i
    · have hfb1 : goodLogB (fullBackup env.finalCompress m).2 = true :=
        goodLogB_of_noEmit _ (quiet_noEmit (quiet_fullBackup _ _))
      have hfb2 : appFreeHead (fullBackup env.finalCompress m).2 = true :=
        appFreeHead_of_quiet (quiet_fullBackup _ _)
      obtain ⟨h1, _⟩ := runAux_goodLog env.iter hE hN MAX_ITERATIONS 1
        [{ role := "user", content := prompt }] []
        (fullBackup env.finalCompress m).2 hfb1 hfb2
      rw [hr] at h1
      have hs : (runMain env prompt).2 =
          lg ++ (fullBackup env.finalCompress m).2 := by
        simp [runMain, hr, hi]
      rw [hs]
      exact h1
    · obtain ⟨h1, _⟩ := runAux_goodLog env.iter hE hN MAX_ITERATIONS 1
        [{ role := "user", content := prompt }] [] [] rfl rfl
      rw [hr] at h1
      have hs : (runMain env prompt).2 = lg := by
        simp [runMain, hr, hi]
      rw [hs]
      simpa using h1
  | interrupted m s =>
    obtain ⟨h1, _⟩ := runAux_goodLog env.iter hE hN MAX_ITERATIONS 1
      [{ role := "user", content := prompt }] [] [] rfl rfl
    rw [hr] at h1
    have hs : (runMain env prompt).2 = lg := by
      simp [runMain, hr]
    rw [hs]
    simpa using h1

/-- Counterexample environment for C1: in iteration 1 the model issues
one tool invocation and its execution raises; in iteration 2 the model
completes.  The invocation id is never answered, yet a second model
call is issued. -/
def itC1a : IterEnv :=
  { tokenize := .unavailable
    thresholdCompress := .raised
    backupCompress := .raised
    interruptCompress := .raised
    model := .reply "calling" [{ id := "id1", name := "write_file" }]
    toolCompress := fun _ => .raised
    toolExec := fun _ => .raised }

def itC1b : IterEnv := { itC1a with model := .reply "done" [] }

def envC1 : RunEnv :=
  { iter := fun n => if n == 1 then itC1a else itC1b
    finalCompress := .raised }

/-- C1 as stated is false: when a tool execution raises, the exception
propagates to the loop's outer handler, the iteration is abandoned,
and the next model call is issued with the invocation id never
answered by a tool-result message. -/
theorem C1_counterexample : goodLogB (runMain envC1 "p").2 = false := by
  decide

/-- Witness environments for the amended C1: iteration 1 issues one
tool call whose execution returns, iteration 2 completes. -/
def itC1w1 : IterEnv :=
  { tokenize := .unavailable
    thresholdCompress := .raised
    backupCompress := .raised
    interruptCompress := .raised
    model := .reply "calling" [{ id := "id1", name := "write_file" }]
    toolCompress := fun _ => .failure
    toolExec := fun _ => .ok "ok" }

def itC1w2 : IterEnv := { itC1w1 with model := .reply "done" [] }

def envC1w : RunEnv :=
  { iter := fun n => if n == 1 then itC1w1 else itC1w2
    finalCompress := .raised }

/-- Witness for the amended C1 at a concrete run. -/
theorem C1_answered_amended_witness :
    goodLogB (runMain envC1w "p").2 = true := by
  refine C1_answered_amended envC1w "p" ?_ ?_
  · intro n j
    by_cases h : n = 1 <;>
      simp [envC1w, itC1w1, itC1w2, h]
  · intro n c fcs hmq
    by_cases h : n = 1 <;>
      simp [envC1w, itC1w1, itC1w2, h] at hmq <;>
      rcases hmq with ⟨h1, h2⟩ <;> subst h2 <;> simp

/-- Counterexample environment for C2: the conversation is a single
message whose token estimate already exceeds the threshold. -/
def envC2 : IterEnv :=
  { wEnv with
    tokenize := .available fun _ => some 200000
    thresholdCompress := .success "S" "snap.md" }

/-- C2 as stated is false: when the threshold is crossed with a
conversation of fewer than eleven messages, a successful compression
pass makes the conversation longer (one synthetic summary message plus
the recent suffix), here from one message to two. -/
theorem C2_counterexample :
    COMPRESSION_THRESHOLD ≤ estimate_token_count envC2.tokenize
        [{ role := "user", content := "write a story" }] ∧
      [({ role := "user", content := "write a story" } : Msg)].length <
        (thresholdPhase envC2
          [{ role := "user", content := "write a story" }]).1.length := by
  decide

/-- C2 (amended): whenever the token estimate of the conversation has
reached the compression threshold, a compression pass with
`keep_recent = 10` is invoked before the next model call; on success
the conversation is replaced with the compressed form; and — provided
the conversation held at least eleven messages — the resulting length
is exactly eleven and does not exceed the original length. -/
theorem C2_compression_amended (env : IterEnv) (i : Nat) (msgs : List Msg)
    (snaps : List String)
    (hTok : COMPRESSION_THRESHOLD ≤ estimate_token_count env.tokenize msgs)
    (hNoSys : msgs.all (fun m => m.role != "system") = true)
    (hLen : 11 ≤ msgs.length) :
    (∃ pre post, (runIter env i msgs snaps).2 =
        pre ++ Ev.call (systemMsg :: (thresholdPhase env msgs).1) :: post ∧
        ∃ b, Ev.compressEv 10 b ∈ pre) ∧
    ∀ s f, env.thresholdCompress = .success s f →
      (thresholdPhase env msgs).1 =
        (buildCompressed (systemMsg :: msgs) 10 s).filter
          (fun m => m.role != "system") ∧
      (thresholdPhase env msgs).1.length = 11 ∧
      (thresholdPhase env msgs).1.length ≤ msgs.length := by
  constructor
  · obtain ⟨post, hp⟩ := runIter_log_shape env i msgs snaps
    refine ⟨(thresholdPhase env msgs).2.2 ++
      (backupPhase env i (thresholdPhase env msgs).1).2, post, ?_, ?_⟩
    · rw [hp, List.append_assoc]
    · obtain ⟨b, hb⟩ := thresholdPhase_compressEv env msgs hTok
      exact ⟨b, List.mem_append_left _ hb⟩
  · intro s f hc
    have h1 := thresholdPhase_success env msgs s f hTok hc
    have h2 := compressed_length msgs 10 s hNoSys
    refine ⟨h1, ?_, ?_⟩
    · rw [h1, h2]; omega
    · rw [h1, h2]; omega

/-- Witness environment and conversation for the amended C2: eleven
user messages whose estimate crosses the threshold. -/
def envC2w : IterEnv :=
  { wEnv with
    tokenize := .available fun _ => some 20000
    thresholdCompress := .success "S" "snap.md" }

def msgsC2w : List Msg := List.replicate 11 { role := "user", content := "x" }

/-- Witness for the amended C2 at a concrete input. -/
theorem C2_compression_amended_witness :
    (∃ pre post, (runIter envC2w 1 msgsC2w []).2 =
        pre ++ Ev.call (systemMsg :: (thresholdPhase envC2w msgsC2w).1) :: post ∧
        ∃ b, Ev.compressEv 10 b ∈ pre) ∧
    ∀ s f, envC2w.thresholdCompress = .success s f →
      (thresholdPhase envC2w msgsC2w).1 =
        (buildCompressed (systemMsg :: msgsC2w) 10 s).filter
          (fun m => m.role != "system") ∧
      (thresholdPhase envC2w msgsC2w).1.length = 11 ∧
      (thresholdPhase envC2w msgsC2w).1.length ≤ msgsC2w.length :=
  C2_compression_amended envC2w 1 msgsC2w [] (by decide) (by decide) (by decide)

/-- The messages in a dispatch-pass exit do not depend on the snapshot
accumulator. -/
theorem dispatchLoop_msgs_snaps_irrel (env : IterEnv) (fcs : List FC) :
    ∀ (idx : Nat) (msgs : List Msg) (s1 s2 : List String),
      ((dispatchLoop env fcs idx msgs s1).1).msgs =
        ((dispatchLoop env fcs idx msgs s2).1).msgs := by
  induction fcs with
  | nil => intro idx msgs s1 s2; rfl
  | cons fc rest ih =>
    intro idx msgs s1 s2
    by_cases hreg : isRegisteredTool fc.name = true
    · by_cases hcc : (fc.name == "compress_context") = true
      · cases hx : env.toolCompress idx with
        | success s f =>
          simpa [dispatchLoop, compress_context_impl, hreg, hcc, hx] using ih ..
        | failure =>
          simpa [dispatchLoop, compress_context_impl, hreg, hcc, hx] using ih ..
        | raised =>
          simp [dispatchLoop, compress_context_impl, hreg, hcc, hx, IterExit.msgs]
      · cases hy : env.toolExec idx with
        | ok r => simpa [dispatchLoop, hreg, hcc, hy] using ih ..
        | raised => simp [dispatchLoop, hreg, hcc, hy, IterExit.msgs]
    · simpa [dispatchLoop, hreg] using ih ..

/-- The live conversation produced by an iteration is the same no
matter how the interval-backup compression turns out: the backup
neither removes, mutates nor replaces any message. -/
theorem runIter_backup_frame (env : IterEnv) (o : CompressOutcome) (i : Nat)
    (msgs : List Msg) (snaps : List String) :
    ((runIter { env with backupCompress := o } i msgs snaps).1).msgs =
      ((runIter env i msgs snaps).1).msgs := by
  obtain ⟨tok, tc, bc, ic, mo, tcm, te⟩ := env
  cases mo with
  | raised => rfl
  | interrupt => rfl
  | reply c fcs =>
    by_cases hf : fcs.isEmpty = true
    · simp only [runIter, hf]
      rfl
    · simp only [runIter, hf]
      have hth : thresholdPhase
          (IterEnv.mk tok tc o ic (.reply c fcs) tcm te) msgs =
          thresholdPhase (IterEnv.mk tok tc bc ic (.reply c fcs) tcm te) msgs := rfl
      rw [dispatchLoop_congr (IterEnv.mk tok tc bc ic (.reply c fcs) tcm te)
        (IterEnv.mk tok tc o ic (.reply c fcs) tcm te) rfl rfl, hth]
      exact dispatchLoop_msgs_snaps_irrel _ fcs 0 _ _ _

/-- C5: on every iteration whose index is a multiple of the backup
interval, the loop invokes a compression pass with `keep_recent` equal
to the entire current conversation length before the model call, and
this backup leaves the live conversation unchanged: the iteration's
resulting conversation is independent of the backup outcome. -/
theorem C5_interval_backup (env : IterEnv) (i : Nat) (msgs : List Msg)
    (snaps : List String) (h : i % BACKUP_INTERVAL = 0) :
    (∃ pre post, (runIter env i msgs snaps).2 =
        pre ++ Ev.call (systemMsg :: (thresholdPhase env msgs).1) :: post ∧
        ∃ b, Ev.compressEv ((thresholdPhase env msgs).1).length b ∈ pre) ∧
    ∀ o, ((runIter { env with backupCompress := o } i msgs snaps).1).msgs =
        ((runIter env i msgs snaps).1).msgs := by
  constructor
  · obtain ⟨post, hp⟩ := runIter_log_shape env i msgs snaps
    refine ⟨(thresholdPhase env msgs).2.2 ++
      (backupPhase env i (thresholdPhase env msgs).1).2, post, ?_, ?_⟩
    · rw [hp, List.append_assoc]
    · obtain ⟨b, hb⟩ :=
        backupPhase_compressEv env i (thresholdPhase env msgs).1 h
      exact ⟨b, List.mem_append_right _ hb⟩
  · intro o
    exact runIter_backup_frame env o i msgs snaps

/-- Witness for C5 at a concrete input: iteration 50. -/
theorem C5_interval_backup_witness :
    (∃ pre post,
        (runIter ({ wEnv with backupCompress := .success "S" "b.md" } : IterEnv)
          50 [{ role := "user", content := "hi" }] []).2 =
        pre ++ Ev.call (systemMsg ::
          (thresholdPhase ({ wEnv with backupCompress := .success "S" "b.md" } : IterEnv)
            [{ role := "user", content := "hi" }]).1) :: post ∧
        ∃ b, Ev.compressEv
          ((thresholdPhase ({ wEnv with backupCompress := .success "S" "b.md" } : IterEnv)
            [{ role := "user", content := "hi" }]).1).length b ∈ pre) ∧
    ∀ o, ((runIter ({ ({ wEnv with backupCompress := .success "S" "b.md" } : IterEnv) with
          backupCompress := o } : IterEnv)
        50 [{ role := "user", content := "hi" }] []).1).msgs =
      ((runIter ({ wEnv with backupCompress := .success "S" "b.md" } : IterEnv)
        50 [{ role := "user", content := "hi" }] []).1).msgs :=
  C5_interval_backup ({ wEnv with backupCompress := .success "S" "b.md" } : IterEnv)
    50 [{ role := "user", content := "hi" }] [] (by decide)

/-- Witness for C7 at a concrete input. -/
theorem C7_model_failure_continues_witness :
    ∃ m s l,
      runIter (({ wEnv with model := .raised } : IterEnv)) 1 [] [] =
        (IterExit.next m s, l) ∧
      runAux (fun _ => ({ wEnv with model := .raised } : IterEnv)) 1 (0 + 1) [] [] =
        ((runAux (fun _ => ({ wEnv with model := .raised } : IterEnv)) (1 + 1) 0 m s).1,
          l ++ (runAux (fun _ => ({ wEnv with model := .raised } : IterEnv)) (1 + 1) 0 m s).2) :=
  C7_model_failure_continues (fun _ => ({ wEnv with model := .raised } : IterEnv))
    1 0 [] [] rfl
